import Mathlib

/-!
# Verification of `autonotion/notion_registry_daily_plan.py`

A shallow embedding of the `NotionDailyPlanner` class: Notion property
values become a tagged variant type, property dictionaries become
association lists with dict-style assignment, and the three orchestrator
phases become explicit state-passing functions that emit a trace of
cache-insertion and page-creation events.  External library calls
(ISO time / datetime parsing) are passed in as function parameters;
returning `none` models a raised parsing exception.
-/

set_option maxRecDepth 4000

namespace AutoNotion

/-- One entry of a Notion rich-text array.  The API response carries both
`plain_text` and `text.content`, which always agree; the embedding keeps a
single field that plays both roles. -/
structure RichTextItem where
  content : String
  deriving DecidableEq, Repr

/-- A Notion date property value: the `start`/`end` pairs of the wire
format.  `start` is an `Option` because the code reads it with `dict.get`
in some places and raises `KeyError` in others. -/
structure DateValue where
  start : Option String
  end_ : Option String
  deriving DecidableEq, Repr

/-- A Notion property value, tagged by its `type` string.  The read-only
types (`formula`, `rollup`, audit authors/timestamps) carry no payload
because the code never reads their contents. -/
inductive NotionValue where
  | title (items : List RichTextItem)
  | rich_text (items : List RichTextItem)
  | number (value : Option Int)
  | select (name : Option String)
  | multi_select (names : List String)
  | date (value : Option DateValue)
  | checkbox (value : Bool)
  | url (value : Option String)
  | email (value : Option String)
  | relation (ids : List String)
  | formula
  | rollup
  | created_by
  | created_time
  | last_edited_by
  | last_edited_time
  deriving DecidableEq, Repr

/-- A property dictionary: key/value pairs with dict semantics
(unique keys, first-match lookup). -/
abbrev Props := List (String × NotionValue)

/-- Dict assignment `d[k] = v`: replaces in place if the key exists,
appends otherwise. -/
def setProp : Props → String → NotionValue → Props
  | [], k, v => [(k, v)]
  | (k', v') :: rest, k, v =>
      if k' = k then (k, v) :: rest else (k', v') :: setProp rest k v

/-- Dict removal `d.pop(k, None)`: drops the entry for `k` if present. -/
def popProp : Props → String → Props
  | [], _ => []
  | (k', v') :: rest, k =>
      if k' = k then rest else (k', v') :: popProp rest k

/-- A Notion page as returned by a database query: its id and its
`properties` dictionary. -/
structure Page where
  id : String
  properties : Props
  deriving DecidableEq, Repr

/-- The date facts the planner reads off `datetime.date.today()`. -/
structure SimpleDate where
  year : Nat
  month : Nat
  day : Nat
  deriving DecidableEq, Repr

/-- Gregorian leap-year rule, as implemented by Python's `datetime`. -/
def isLeapYear (y : Nat) : Bool :=
  y % 4 = 0 && (y % 100 ≠ 0 || y % 400 = 0)

/-- Number of days in a month.  This is the value the code computes with
`(today.replace(day=28) + timedelta(days=4)).replace(day=1) -
timedelta(days=1)`: the day number of the last day of `today`'s month. -/
def daysInMonth (y m : Nat) : Nat :=
  if m = 2 then (if isLeapYear y then 29 else 28)
  else if m = 4 || m = 6 || m = 9 || m = 11 then 30
  else 31

/-- Month offset table of Sakamoto's day-of-week algorithm. -/
def sakamotoTable : List Nat := [0, 3, 2, 5, 0, 3, 5, 1, 4, 6, 2, 4]

/-- ISO weekday (Monday = 1 .. Sunday = 7) of a Gregorian date; models
Python's `date.isoweekday()`. -/
def isoweekday (d : SimpleDate) : Nat :=
  let y := if d.month < 3 then d.year - 1 else d.year
  let t := (sakamotoTable.getD (d.month - 1) 0)
  let w := (y + y / 4 + y / 400 + t + d.day + 6 * (y / 100)) % 7
  -- `w` has Sunday = 0; ISO has Sunday = 7.
  (w + 6) % 7 + 1

/-- `_get_week_of_month`: week number of a day within its month. -/
def get_week_of_month (d : SimpleDate) : Nat :=
  (d.day - 1) / 7 + 1

/-- `_get_multi_select_values`: option names of a multi-select property,
`[]` when the property is absent or not a multi-select. -/
def get_multi_select_values (prop : Option NotionValue) : List String :=
  match prop with
  | some (.multi_select names) => names
  | _ => []

/-- The `week_map` dictionary of `_is_task_scheduled_for_today`. -/
def week_map : List (String × Nat) := [("1ª", 1), ("2ª", 2), ("3ª", 3), ("4ª", 4)]

/-- The body of the `for periodicity in periodicities` loop of
`_is_task_scheduled_for_today`: whether one periodicity value schedules
the task on `today`. -/
def periodicity_matches (props : Props) (today : SimpleDate) (periodicity : String) : Bool :=
  (periodicity = "Diaria")
  ||
  (periodicity = "Semanal" &&
    (get_multi_select_values (List.lookup "Día de la semana" props)).contains
      (toString (isoweekday today)))
  ||
  (periodicity = "Mensual" &&
    (let days_of_month := get_multi_select_values (List.lookup "Día del mes" props)
     -- Case 1: specific day of the month.
     days_of_month.contains (toString today.day)
     ||
     -- Case 2: week-based scheduling.
     (let weeks_of_month := get_multi_select_values (List.lookup "Semana del mes" props)
      let days_of_week := get_multi_select_values (List.lookup "Día de la semana" props)
      !weeks_of_month.isEmpty && !days_of_week.isEmpty &&
      (let today_week_num := get_week_of_month today
       -- Check for "last" week: today within the final 7 days of the month.
       (weeks_of_month.contains "Última" &&
         decide (today.day > daysInMonth today.year today.month - 7) &&
         days_of_week.contains (toString (isoweekday today)))
       ||
       -- Check for numbered weeks (1st .. 4th).
       week_map.any (fun wk =>
         weeks_of_month.contains wk.1 && today_week_num = wk.2 &&
         days_of_week.contains (toString (isoweekday today)))))))
  ||
  (periodicity = "Anual" &&
    (get_multi_select_values (List.lookup "Mes" props)).contains (toString today.month) &&
    (get_multi_select_values (List.lookup "Día del mes" props)).contains (toString today.day))

/-- `_is_task_scheduled_for_today`: the loop returns `True` as soon as any
periodicity branch matches, `False` after the loop (and immediately when
the periodicity list is empty). -/
def is_task_scheduled_for_today (props : Props) (today : SimpleDate) : Bool :=
  let periodicities := get_multi_select_values (List.lookup "Periodicidad" props)
  if periodicities.isEmpty then false
  else periodicities.any (periodicity_matches props today)

/-- Spec-side restatement of the `Monthly` rule, written from the spec's
words: true iff either the day-of-month is listed, or the week-based rule
fires — both week sets non-empty, the ISO weekday listed, and the
week-of-month matching, where an ordinal week `k` matches when
`(day - 1) / 7 + 1 = k` and `Last` matches when
`day > daysInMonth - 7`, each evaluated as an independent condition. -/
def mensual_spec (daysOfMonth weeksOfMonth daysOfWeek : List String)
    (d : SimpleDate) : Bool :=
  daysOfMonth.contains (toString d.day)
  ||
  (!weeksOfMonth.isEmpty && !daysOfWeek.isEmpty
    && daysOfWeek.contains (toString (isoweekday d))
    && ((weeksOfMonth.contains "1ª" && (d.day - 1) / 7 + 1 = 1)
        || (weeksOfMonth.contains "2ª" && (d.day - 1) / 7 + 1 = 2)
        || (weeksOfMonth.contains "3ª" && (d.day - 1) / 7 + 1 = 3)
        || (weeksOfMonth.contains "4ª" && (d.day - 1) / 7 + 1 = 4)
        || (weeksOfMonth.contains "Última"
            && decide (d.day > daysInMonth d.year d.month - 7))))

/-! ## Planned-datetime construction (`_build_planned_datetime`) -/

/-- A clock time as produced by `datetime.time.fromisoformat`. -/
structure TimeOfDay where
  hour : Nat
  minute : Nat
  deriving DecidableEq, Repr

/-- Zero-padded two-digit rendering used by `isoformat`. -/
def pad2 (n : Nat) : String :=
  if n < 10 then "0" ++ toString n else toString n

/-- `datetime.datetime.combine(today, t, tzinfo=self.timezone).isoformat()`:
the ISO rendering of today's date at clock time `t` in the configured
timezone (the constant timezone suffix is omitted from the embedding). -/
def combineIso (today : SimpleDate) (t : TimeOfDay) : String :=
  toString today.year ++ "-" ++ pad2 today.month ++ "-" ++ pad2 today.day
    ++ "T" ++ pad2 t.hour ++ ":" ++ pad2 t.minute ++ ":00"

/-- The local-noon fallback `{"start": datetime(y, m, d, 12, 0, 0, tz).isoformat()}`. -/
def noonFallback (today : SimpleDate) : DateValue :=
  { start := some (combineIso today ⟨12, 0⟩), end_ := none }

/-- `_build_planned_datetime`.  `parseTime` embeds
`datetime.time.fromisoformat`; `parseTime s = none` models a raised
`ValueError`, which the `except ValueError` arm turns into the noon
fallback.  An empty string is falsy in Python, so it selects the
`else` branch (for the start) or skips the end entirely. -/
def build_planned_datetime (parseTime : String → Option TimeOfDay)
    (today : SimpleDate) (start_time_str end_time_str : Option String) : DateValue :=
  match start_time_str with
  | none => noonFallback today
  | some s =>
    if s = "" then noonFallback today
    else
      match parseTime s with
      | none => noonFallback today
      | some start_time =>
        match end_time_str with
        | none => { start := some (combineIso today start_time), end_ := none }
        | some e =>
          if e = "" then { start := some (combineIso today start_time), end_ := none }
          else
            match parseTime e with
            | none => noonFallback today
            | some end_time =>
              { start := some (combineIso today start_time)
                end_ := some (combineIso today end_time) }

/-! ## Property copying and payload building -/

/-- The `read_only_types` list of `_copy_writable_properties`, as a
predicate on the tagged value. -/
def is_read_only_type (v : NotionValue) : Bool :=
  match v with
  | .formula | .rollup | .created_by | .created_time
  | .last_edited_by | .last_edited_time => true
  | _ => false

/-- The per-property sanitisation chain of `_copy_writable_properties`:
`some` with the re-emitted writable sub-structure when one of the
`elif prop_type == ...` branches fires, `none` when the value is falsy or
of an unhandled type (e.g. `relation`) and the property is dropped. -/
def sanitize_property (v : NotionValue) : Option NotionValue :=
  match v with
  | .title items =>
      if items.isEmpty then none
      else some (.title (items.map (fun p => ⟨p.content⟩)))
  | .rich_text items =>
      if items.isEmpty then none
      else some (.rich_text (items.map (fun p => ⟨p.content⟩)))
  | .number value =>
      match value with
      | some n => some (.number (some n))
      | none => none
  | .select name =>
      match name with
      | some n => some (.select (some n))
      | none => none
  | .multi_select names =>
      if names.isEmpty then none else some (.multi_select names)
  | .date value =>
      match value with
      | some dv =>
          -- Sanitize the date object: keep `start`, keep `end` only if truthy.
          some (.date (some { start := dv.start,
                              end_ := match dv.end_ with
                                      | some e => if e = "" then none else some e
                                      | none => none }))
      | none => none
  | .checkbox b => some (.checkbox b)
  | .url value =>
      match value with
      | some u => if u = "" then none else some (.url (some u))
      | none => none
  | .email value =>
      match value with
      | some e => if e = "" then none else some (.email (some e))
      | none => none
  | _ => none

/-- The body of the `for key, prop in source_properties.items()` loop of
`_copy_writable_properties`: skip keys absent from the target schema,
skip read-only types, store the sanitised value otherwise. -/
def copy_step (target_properties : List String) (acc : Props)
    (kv : String × NotionValue) : Props :=
  if !target_properties.contains kv.1 then acc
  else if is_read_only_type kv.2 then acc
  else
    match sanitize_property kv.2 with
    | some v => setProp acc kv.1 v
    | none => acc

/-- `_copy_writable_properties`: walk the source dictionary, keep only
keys present in the target schema whose type is not read-only, and store
the sanitised value. -/
def copy_writable_properties (source_properties : Props)
    (target_properties : List String) : Props :=
  source_properties.foldl (copy_step target_properties) []

/-- The payload of a page-creation request. -/
structure Payload where
  parent_database_id : String
  properties : Props
  deriving DecidableEq, Repr

/-- `_build_new_page_payload`.  `planned_date = some d` models a truthy
planned dict (every dict this code passes carries a `"start"` key). -/
def build_new_page_payload (registry_db_properties : List String)
    (registry_db_id : String) (source_task : Page) (task_name : String)
    (planned_date : Option DateValue) : Payload :=
  let source_properties := source_task.properties
  let new_properties := copy_writable_properties source_properties registry_db_properties
  let new_properties := setProp new_properties "Nombre" (.title [⟨task_name⟩])
  -- Handle the 'Tarea' relation.
  let new_properties :=
    if registry_db_properties.contains "Tarea" then
      match List.lookup "Tarea" source_properties with
      | some (.relation (r :: rs)) =>
          setProp new_properties "Tarea" (.relation (r :: rs))
      | _ =>
          setProp new_properties "Tarea" (.relation [source_task.id])
    else new_properties
  let new_properties :=
    match planned_date with
    | some d => setProp new_properties "Horario Planificado" (.date (some d))
    | none => new_properties
  -- Ensure the old 'Horario' property is not carried over.
  let new_properties := popProp new_properties "Horario"
  { parent_database_id := registry_db_id, properties := new_properties }

/-! ## The three orchestrator phases

Each phase is a function of the query results it would receive from the
remote store, the in-memory dedup cache state on entry, and the schema;
it returns the cache state on exit together with the ordered trace of
cache insertions and page-creation calls it performs. -/

/-- Task-name extraction as performed at every loop head:
`props.get("Nombre", {}).get("title", [{}])` followed by
`[0].get("plain_text")` and a truthiness test.  A missing title, an empty
title array and an empty string are all falsy, hence `none`. -/
def extract_task_name (props : Props) : Option String :=
  match List.lookup "Nombre" props with
  | some (.title (item :: _)) => if item.content = "" then none else some item.content
  | _ => none

/-- `_get_todays_scheduled_task_names`: the set of non-empty names among
the pages the registry returns for today's date range. -/
def todays_scheduled_task_names (todays_tasks : List Page) : List String :=
  todays_tasks.filterMap (fun task => extract_task_name task.properties)

/-- The lazy per-date seeding done at the top of every phase:
`if today_str not in self.existing_tasks_names: ... = self._get_todays_scheduled_task_names(...)`.
`none` models a session in which today's key is absent from the dict. -/
def seed_cache (init : Option (List String)) (registry_today : List Page) : List String :=
  match init with
  | some cache => cache
  | none => todays_scheduled_task_names registry_today

/-- Observable actions of a phase, in execution order. -/
inductive Event where
  | cacheAdd (name : String)
  | createPage (payload : Payload)
  deriving DecidableEq, Repr

/-- Replay the cache-insertion events of a trace on top of a cache state. -/
def cacheAfter (cache : List String) : List Event → List String
  | [] => cache
  | .cacheAdd n :: rest => cacheAfter (n :: cache) rest
  | .createPage _ :: rest => cacheAfter cache rest

/-- Number of page-creation calls in a trace whose payload title is the
given name. -/
def creates_named (n : String) (evts : List Event) : Nat :=
  (evts.filter (fun e =>
    match e with
    | .createPage p => extract_task_name p.properties == some n
    | _ => false)).length

/-- First `plain_text` of a rich-text property, as read for
`Hora Inicio` / `Hora Fin` (`None` when the array is empty or the
property missing / not rich-text). -/
def rich_text_first (props : Props) (key : String) : Option String :=
  match List.lookup key props with
  | some (.rich_text (item :: _)) => some item.content
  | _ => none

/-- One iteration of the `generate_periodic_tasks` loop: skip on missing
name, on a cache hit, or when not scheduled today; otherwise create the
page and only then record the name in the cache. -/
def generate_periodic_step (parseTime : String → Option TimeOfDay)
    (today : SimpleDate) (schema : List String) (db_id : String)
    (cache : List String) (task : Page) : List String × List Event :=
  match extract_task_name task.properties with
  | none => (cache, [])
  | some task_name =>
    if cache.contains task_name then (cache, [])
    else if is_task_scheduled_for_today task.properties today then
      let start_time_str := rich_text_first task.properties "Hora Inicio"
      let end_time_str := rich_text_first task.properties "Hora Fin"
      let planned := build_planned_datetime parseTime today start_time_str end_time_str
      let payload := build_new_page_payload schema db_id task task_name (some planned)
      (task_name :: cache, [.createPage payload, .cacheAdd task_name])
    else (cache, [])

/-- One iteration of the `add_alerted_objective_tasks` loop: like the
periodic step but with no schedule check, and with the cache insertion
performed before the creation call. -/
def alerted_step (parseTime : String → Option TimeOfDay)
    (today : SimpleDate) (schema : List String) (db_id : String)
    (cache : List String) (task : Page) : List String × List Event :=
  match extract_task_name task.properties with
  | none => (cache, [])
  | some task_name =>
    if cache.contains task_name then (cache, [])
    else
      let start_time_str := rich_text_first task.properties "Hora Inicio"
      let end_time_str := rich_text_first task.properties "Hora Fin"
      let planned := build_planned_datetime parseTime today start_time_str end_time_str
      let payload := build_new_page_payload schema db_id task task_name (some planned)
      (task_name :: cache, [.cacheAdd task_name, .createPage payload])

/-- The truthy date picked at the top of the duplication loop:
`Horario` takes priority, then `Horario Planificado`; `none` when
neither carries a truthy date value. -/
def source_date_of (props : Props) : Option DateValue :=
  match List.lookup "Horario" props with
  | some (.date (some d)) => some d
  | _ =>
    match List.lookup "Horario Planificado" props with
    | some (.date (some d)) => some d
    | _ => none

/-- The `if source_date_obj.get("end"):` block of the duplication loop:
`some end_time_str` on success (with `none` for a falsy or absent end),
`none` when `fromisoformat` raises on the end string. -/
def extract_end_time (extractTime : String → Option String) :
    Option String → Option (Option String)
  | none => some none
  | some e =>
    if e = "" then some none   -- falsy: the end branch is skipped
    else
      match extractTime e with
      | none => none
      | some end_str => some (some end_str)

/-- One iteration of the `duplicate_unfinished_tasks_for_today` loop.
`extractTime` embeds `datetime.datetime.fromisoformat` followed by the
timezone conversion and `.time().isoformat(timespec="minutes")`; its
`none` models a raised exception, which this loop does not catch, so the
step answers `none` (the phase aborts).  On acceptance the name is added
to the cache before the creation call. -/
def duplicate_step (extractTime : String → Option String)
    (parseTime : String → Option TimeOfDay)
    (today : SimpleDate) (schema : List String) (db_id : String)
    (cache : List String) (task : Page) : Option (List String × List Event) :=
  match extract_task_name task.properties, source_date_of task.properties with
  | some task_name, some source_date =>
    if cache.contains task_name then some (cache, [])
    else
      match source_date.start with
      | none => none   -- KeyError on source_date_obj["start"]
      | some s =>
        match extractTime s with
        | none => none   -- ValueError from fromisoformat
        | some start_time_str =>
          match extract_end_time extractTime source_date.end_ with
          | none => none
          | some end_time_str =>
            let planned :=
              build_planned_datetime parseTime today (some start_time_str) end_time_str
            let payload := build_new_page_payload schema db_id task task_name (some planned)
            some (task_name :: cache, [.cacheAdd task_name, .createPage payload])
  | _, _ => some (cache, [])   -- missing name or date: skipped with a warning

/-- The shared `for task in ...` loop for the two total phases. -/
def run_loop (step : List String → Page → List String × List Event) :
    List String → List Page → List String × List Event
  | cache, [] => (cache, [])
  | cache, task :: rest =>
      let s := step cache task
      let r := run_loop step s.1 rest
      (r.1, s.2 ++ r.2)

/-- The duplication loop, which an uncaught exception can cut short: the
instance cache keeps the value it had when the exception was raised and
no further events happen. -/
def duplicate_loop (step : List String → Page → Option (List String × List Event)) :
    List String → List Page → List String × List Event
  | cache, [] => (cache, [])
  | cache, task :: rest =>
      match step cache task with
      | none => (cache, [])
      | some s =>
          let r := duplicate_loop step s.1 rest
          (r.1, s.2 ++ r.2)

/-- `generate_periodic_tasks` (Phase 2): seed the cache for today if its
key is absent, then process the periodic templates returned by the
tasks-database query. -/
def generate_periodic_tasks (parseTime : String → Option TimeOfDay)
    (today : SimpleDate) (schema : List String) (db_id : String)
    (init : Option (List String)) (registry_today periodic_tasks : List Page) :
    List String × List Event :=
  run_loop (generate_periodic_step parseTime today schema db_id)
    (seed_cache init registry_today) periodic_tasks

/-- `duplicate_unfinished_tasks_for_today` (Phase 1): seed the cache for
today if its key is absent, then process the unfinished records returned
by the registry query. -/
def duplicate_unfinished_tasks_for_today (extractTime : String → Option String)
    (parseTime : String → Option TimeOfDay)
    (today : SimpleDate) (schema : List String) (db_id : String)
    (init : Option (List String)) (registry_today tasks_to_duplicate : List Page) :
    List String × List Event :=
  duplicate_loop (duplicate_step extractTime parseTime today schema db_id)
    (seed_cache init registry_today) tasks_to_duplicate

/-- `add_alerted_objective_tasks` (Phase 3): seed the cache for today if
its key is absent, then process the alerted tasks returned by the
tasks-database query. -/
def add_alerted_objective_tasks (parseTime : String → Option TimeOfDay)
    (today : SimpleDate) (schema : List String) (db_id : String)
    (init : Option (List String)) (registry_today alerted_tasks : List Page) :
    List String × List Event :=
  run_loop (alerted_step parseTime today schema db_id)
    (seed_cache init registry_today) alerted_tasks

/-! ## Concrete fixtures used by witnesses and counterexamples -/

/-- A `Monthly / Last week / Friday` scheduling descriptor. -/
def lastFridayDescriptor : Props :=
  [("Periodicidad", .multi_select ["Mensual"]),
   ("Semana del mes", .multi_select ["Última"]),
   ("Día de la semana", .multi_select ["5"])]

/-- A registry page named `"X"`, as the today-query would return it. -/
def registryPageX : Page :=
  { id := "reg-x", properties := [("Nombre", .title [⟨"X"⟩])] }

/-- A periodic template named `"X"` that is due every day. -/
def templateX : Page :=
  { id := "tpl-x",
    properties := [("Nombre", .title [⟨"X"⟩]),
                   ("Periodicidad", .multi_select ["Diaria"])] }

/-- An unfinished registry record named `"T"` carrying an original
schedule date. -/
def unfinishedTaskT : Page :=
  { id := "reg-t",
    properties := [("Nombre", .title [⟨"T"⟩]),
                   ("Horario", .date (some { start := some "2025-10-05T09:00:00"
                                             end_ := none }))] }

/-- A record with a name but no truthy `Horario` / `Horario Planificado`
date. -/
def datelessTask : Page :=
  { id := "reg-d",
    properties := [("Nombre", .title [⟨"D"⟩]),
                   ("Horario", .date none),
                   ("Estado", .select (some "En curso"))] }

/-- Concrete stand-in for the datetime-to-clock-string extraction. -/
def demoExtractTime : String → Option String :=
  fun s => if s = "2025-10-05T09:00:00" then some "09:00" else none

/-- Concrete stand-in for `datetime.time.fromisoformat`. -/
def demoParseTime : String → Option TimeOfDay :=
  fun s => if s = "09:00" then some ⟨9, 0⟩ else none

/-- A source record already carrying a populated back-reference relation. -/
def sourceWithRelation : Page :=
  { id := "S", properties := [("Tarea", .relation ["orig"])] }

/-- The payload the duplication phase builds for `unfinishedTaskT` under
the empty schema. -/
def payloadT : Payload :=
  { parent_database_id := "registry",
    properties := [("Nombre", .title [⟨"T"⟩]),
                   ("Horario Planificado",
                     .date (some { start := some "2025-10-06T09:00:00", end_ := none }))] }

/-- Characterisation of a loop step used by the total phase loops: each
iteration either leaves the state unchanged with no events, or pushes one
fresh name and emits events containing exactly one page creation, for
that name. -/
def StepSpec (step : List String → Page → List String × List Event) : Prop :=
  ∀ cache task, step cache task = (cache, []) ∨
    ∃ n evts, cache.contains n = false ∧ step cache task = (n :: cache, evts) ∧
      ∀ m, creates_named m evts = if n = m then 1 else 0

/-- Characterisation of a loop step used by the abortable duplication
loop: as `StepSpec`, with a third possibility of raising. -/
def StepSpecOpt (step : List String → Page → Option (List String × List Event)) : Prop :=
  ∀ cache task, step cache task = none ∨ step cache task = some (cache, []) ∨
    ∃ n evts, cache.contains n = false ∧ step cache task = some (n :: cache, evts) ∧
      ∀ m, creates_named m evts = if n = m then 1 else 0

end AutoNotion

namespace AutoNotion

/-! ## Helper lemmas -/

theorem mem_setProp {l : Props} {k : String} {v : NotionValue} {kv : String × NotionValue}
    (h : kv ∈ setProp l k v) : kv = (k, v) ∨ kv ∈ l := by
  induction l with
  | nil => simp [setProp] at h; simp [h]
  | cons hd tl ih =>
    rw [setProp] at h
    by_cases hk : hd.1 = k
    · simp [hk] at h
      rcases h with h | h
      · exact Or.inl (by simp [h])
      · exact Or.inr (List.mem_cons_of_mem _ h)
    · simp [hk] at h
      rcases h with h | h
      · exact Or.inr (by simp [h])
      · rcases ih h with h' | h'
        · exact Or.inl h'
        · exact Or.inr (List.mem_cons_of_mem _ h')

theorem mem_popProp {l : Props} {k : String} {kv : String × NotionValue}
    (h : kv ∈ popProp l k) : kv ∈ l := by
  induction l with
  | nil => simp [popProp] at h
  | cons hd tl ih =>
    rw [popProp] at h
    by_cases hk : hd.1 = k
    · simp [hk] at h
      exact List.mem_cons_of_mem _ h
    · simp [hk] at h
      rcases h with h | h
      · simp [h]
      · exact List.mem_cons_of_mem _ (ih h)

theorem lookup_cons_self (k : String) (v : NotionValue) (tl : Props) :
    List.lookup k ((k, v) :: tl) = some v := by
  simp [List.lookup_cons]

theorem lookup_cons_ne {k k' : String} (v : NotionValue) (tl : Props) (h : k' ≠ k) :
    List.lookup k' ((k, v) :: tl) = List.lookup k' tl := by
  have hne : (k' == k) = false := beq_eq_false_iff_ne.mpr h
  simp [List.lookup_cons, hne]

theorem lookup_setProp_self (l : Props) (k : String) (v : NotionValue) :
    List.lookup k (setProp l k v) = some v := by
  induction l with
  | nil => rw [setProp, lookup_cons_self]
  | cons hd tl ih =>
    rw [setProp]
    by_cases hk : hd.1 = k
    · simp [hk, lookup_cons_self]
    · rw [if_neg hk, show hd = (hd.1, hd.2) from rfl,
        lookup_cons_ne _ _ (fun e => hk e.symm), ih]

theorem lookup_setProp_ne (l : Props) {k k' : String} (v : NotionValue) (h : k' ≠ k) :
    List.lookup k' (setProp l k v) = List.lookup k' l := by
  induction l with
  | nil => simp [setProp, lookup_cons_ne _ _ h]
  | cons hd tl ih =>
    rw [setProp]
    by_cases hk : hd.1 = k
    · rw [if_pos hk, lookup_cons_ne _ _ h, show hd = (hd.1, hd.2) from rfl,
        lookup_cons_ne _ _ (hk ▸ h)]
    · by_cases hk' : k' = hd.1
      · rw [if_neg hk, show hd = (hd.1, hd.2) from rfl, ← hk',
          lookup_cons_self, lookup_cons_self]
      · rw [if_neg hk, show hd = (hd.1, hd.2) from rfl,
          lookup_cons_ne _ _ hk', lookup_cons_ne _ _ hk', ih]

theorem lookup_popProp_ne (l : Props) {k k' : String} (h : k' ≠ k) :
    List.lookup k' (popProp l k) = List.lookup k' l := by
  induction l with
  | nil => rw [popProp]
  | cons hd tl ih =>
    rw [popProp]
    by_cases hk : hd.1 = k
    · rw [if_pos hk, show hd = (hd.1, hd.2) from rfl, lookup_cons_ne _ _ (hk ▸ h)]
    · by_cases hk' : k' = hd.1
      · rw [if_neg hk, show hd = (hd.1, hd.2) from rfl, ← hk',
          lookup_cons_self, lookup_cons_self]
      · rw [if_neg hk, show hd = (hd.1, hd.2) from rfl,
          lookup_cons_ne _ _ hk', lookup_cons_ne _ _ hk', ih]

theorem sanitize_property_not_read_only {v v' : NotionValue}
    (h : sanitize_property v = some v') : is_read_only_type v' = false := by
  unfold sanitize_property at h
  repeat' split at h
  all_goals first
    | exact Option.noConfusion h
    | (injection h with h; subst h; rfl)

theorem mem_copy_step {target : List String} {acc : Props}
    {kv kv' : String × NotionValue} (h : kv' ∈ copy_step target acc kv) :
    (∃ v, kv' = (kv.1, v) ∧ sanitize_property kv.2 = some v) ∨ kv' ∈ acc := by
  unfold copy_step at h
  repeat' split at h
  · exact Or.inr h
  · exact Or.inr h
  · rcases mem_setProp h with rfl | hm
    · exact Or.inl ⟨_, rfl, by assumption⟩
    · exact Or.inr hm
  · exact Or.inr h

theorem foldl_copy_step_sanitized (target : List String) (source : Props) :
    ∀ acc : Props,
      (∀ kv' ∈ acc, ∃ v₀, sanitize_property v₀ = some kv'.2) →
      ∀ kv' ∈ source.foldl (copy_step target) acc,
        ∃ v₀, sanitize_property v₀ = some kv'.2 := by
  induction source with
  | nil => intro acc hacc kv' h'; exact hacc kv' (by simpa using h')
  | cons hd tl ih =>
    intro acc hacc kv' h'
    rw [List.foldl_cons] at h'
    refine ih _ ?_ kv' h'
    intro kv'' h''
    rcases mem_copy_step h'' with ⟨v, rfl, hs⟩ | hm
    · exact ⟨_, hs⟩
    · exact hacc _ hm

theorem mem_copy_writable_properties {source : Props} {target : List String}
    {kv : String × NotionValue} (h : kv ∈ copy_writable_properties source target) :
    ∃ v₀, sanitize_property v₀ = some kv.2 :=
  foldl_copy_step_sanitized target source [] (by simp) kv h

theorem copy_writable_properties_not_read_only (source : Props) (target : List String)
    {kv : String × NotionValue} (h : kv ∈ copy_writable_properties source target) :
    is_read_only_type kv.2 = false := by
  rcases mem_copy_writable_properties h with ⟨v₀, hs⟩
  exact sanitize_property_not_read_only hs

theorem lookup_payload_nombre (schema : List String) (db_id : String)
    (source_task : Page) (task_name : String) (planned_date : Option DateValue) :
    List.lookup "Nombre"
        (build_new_page_payload schema db_id source_task task_name planned_date).properties
      = some (.title [⟨task_name⟩]) := by
  simp only [build_new_page_payload]
  rw [lookup_popProp_ne _ (by decide)]
  have hpl : ∀ l : Props, List.lookup "Nombre"
      (match planned_date with
       | some d => setProp l "Horario Planificado" (.date (some d))
       | none => l) = List.lookup "Nombre" l := by
    intro l
    cases planned_date with
    | none => rfl
    | some d' => exact lookup_setProp_ne l _ (by decide)
  rw [hpl]
  by_cases ht : schema.contains "Tarea"
  · simp only [ht, if_true]
    split
    · rw [lookup_setProp_ne _ _ (by decide), lookup_setProp_self]
    · rw [lookup_setProp_ne _ _ (by decide), lookup_setProp_self]
  · simp only [ht, if_false, Bool.false_eq_true]
    rw [lookup_setProp_self]

theorem extract_task_name_ne_empty {props : Props} {n : String}
    (h : extract_task_name props = some n) : n ≠ "" := by
  unfold extract_task_name at h
  repeat' split at h
  all_goals first
    | exact Option.noConfusion h
    | (injection h with h; subst h; assumption)

theorem extract_name_build_payload (schema : List String) (db_id : String)
    (source_task : Page) (task_name : String) (planned_date : Option DateValue)
    (hn : task_name ≠ "") :
    extract_task_name
        (build_new_page_payload schema db_id source_task task_name planned_date).properties
      = some task_name := by
  unfold extract_task_name
  rw [lookup_payload_nombre]
  simp [hn]

theorem creates_named_append (n : String) (a b : List Event) :
    creates_named n (a ++ b) = creates_named n a + creates_named n b := by
  simp [creates_named, List.filter_append]

theorem creates_named_nil (n : String) : creates_named n [] = 0 := rfl

theorem creates_named_chunk {n : String} {payload : Payload}
    (hp : extract_task_name payload.properties = some n)
    (e : Event) (he : ∀ q, e ≠ .createPage q) :
    ∀ m, creates_named m [Event.createPage payload, e] = if n = m then 1 else 0 := by
  intro m
  cases e with
  | createPage q => exact absurd rfl (he q)
  | cacheAdd _ =>
    by_cases hm : n = m
    · simp [creates_named, List.filter, hp, hm]
    · have hb : (n == m) = false := beq_eq_false_iff_ne.mpr hm
      simp [creates_named, List.filter, hp, hm, hb]

theorem generate_periodic_step_spec (parseTime : String → Option TimeOfDay)
    (today : SimpleDate) (schema : List String) (db_id : String) :
    StepSpec (generate_periodic_step parseTime today schema db_id) := by
  intro cache task
  unfold generate_periodic_step
  split
  · exact Or.inl rfl
  next n hn =>
    split
    · exact Or.inl rfl
    next hc =>
      split
      · refine Or.inr ⟨n, _, by simpa using hc, rfl, ?_⟩
        exact creates_named_chunk
          (extract_name_build_payload _ _ _ _ _ (extract_task_name_ne_empty hn))
          _ (fun q => by simp)
      · exact Or.inl rfl

theorem alerted_step_chunk {n : String} {payload : Payload}
    (hp : extract_task_name payload.properties = some n) :
    ∀ m, creates_named m [Event.cacheAdd n, Event.createPage payload] = if n = m then 1 else 0 := by
  intro m
  by_cases hm : n = m
  · simp [creates_named, List.filter, hp, hm]
  · have hb : (n == m) = false := beq_eq_false_iff_ne.mpr hm
    simp [creates_named, List.filter, hp, hm, hb]

theorem alerted_step_spec (parseTime : String → Option TimeOfDay)
    (today : SimpleDate) (schema : List String) (db_id : String) :
    StepSpec (alerted_step parseTime today schema db_id) := by
  intro cache task
  unfold alerted_step
  split
  · exact Or.inl rfl
  next n hn =>
    split
    · exact Or.inl rfl
    next hc =>
      refine Or.inr ⟨n, _, by simpa using hc, rfl, ?_⟩
      exact alerted_step_chunk
        (extract_name_build_payload _ _ _ _ _ (extract_task_name_ne_empty hn))

theorem duplicate_step_cases (extractTime : String → Option String)
    (parseTime : String → Option TimeOfDay) (today : SimpleDate)
    (schema : List String) (db_id : String) (cache : List String) (task : Page) :
    duplicate_step extractTime parseTime today schema db_id cache task = none ∨
    duplicate_step extractTime parseTime today schema db_id cache task = some (cache, []) ∨
    ∃ n payload, extract_task_name payload.properties = some n ∧
      cache.contains n = false ∧
      duplicate_step extractTime parseTime today schema db_id cache task
        = some (n :: cache, [.cacheAdd n, .createPage payload]) := by
  cases hname : extract_task_name task.properties with
  | none => exact Or.inr (Or.inl (by simp [duplicate_step, hname]))
  | some n =>
    cases hdate : source_date_of task.properties with
    | none => exact Or.inr (Or.inl (by simp [duplicate_step, hname, hdate]))
    | some srcd =>
      by_cases hc : cache.contains n
      · refine Or.inr (Or.inl ?_)
        unfold duplicate_step
        simp only [hname, hdate, hc, if_true]
      · unfold duplicate_step
        simp only [hname, hdate, hc, Bool.false_eq_true, if_false]
        repeat' split
        all_goals try exact Or.inl rfl
        refine Or.inr (Or.inr ⟨n, _, ?_, by simpa using hc, rfl⟩)
        exact extract_name_build_payload _ _ _ _ _ (extract_task_name_ne_empty hname)

theorem duplicate_step_spec_opt (extractTime : String → Option String)
    (parseTime : String → Option TimeOfDay) (today : SimpleDate)
    (schema : List String) (db_id : String) :
    StepSpecOpt (duplicate_step extractTime parseTime today schema db_id) := by
  intro cache task
  rcases duplicate_step_cases extractTime parseTime today schema db_id cache task with
    h | h | ⟨n, payload, hp, hc, h⟩
  · exact Or.inl h
  · exact Or.inr (Or.inl h)
  · exact Or.inr (Or.inr ⟨n, _, hc, h, alerted_step_chunk hp⟩)

theorem run_loop_mono {step : List String → Page → List String × List Event}
    (hstep : StepSpec step) :
    ∀ (tasks : List Page) (cache : List String) (n : String),
      n ∈ cache → n ∈ (run_loop step cache tasks).1 := by
  intro tasks
  induction tasks with
  | nil => intro cache n h; simpa [run_loop] using h
  | cons t rest ih =>
    intro cache n h
    rcases hstep cache t with h1 | ⟨n', evts, hn', h1, hc⟩
    · simp only [run_loop, h1]
      exact ih cache n h
    · simp only [run_loop, h1]
      exact ih _ n (List.mem_cons_of_mem _ h)

theorem run_loop_no_create {step : List String → Page → List String × List Event}
    (hstep : StepSpec step) :
    ∀ (tasks : List Page) (cache : List String) (n : String),
      n ∈ cache → creates_named n (run_loop step cache tasks).2 = 0 := by
  intro tasks
  induction tasks with
  | nil => intro cache n _; rfl
  | cons t rest ih =>
    intro cache n h
    rcases hstep cache t with h1 | ⟨n', evts, hn', h1, hc⟩
    · simp only [run_loop, h1]
      simpa [creates_named_append] using ih cache n h
    · simp only [run_loop, h1]
      rw [creates_named_append, hc n, ih _ n (List.mem_cons_of_mem _ h)]
      have : ¬ n' = n := by
        intro e; subst e
        exact absurd (by simpa using h) (by simpa using hn')
      simp [this]

theorem run_loop_create_le_one {step : List String → Page → List String × List Event}
    (hstep : StepSpec step) :
    ∀ (tasks : List Page) (cache : List String) (n : String),
      creates_named n (run_loop step cache tasks).2 ≤ 1 ∧
      (1 ≤ creates_named n (run_loop step cache tasks).2 →
        n ∈ (run_loop step cache tasks).1) := by
  intro tasks
  induction tasks with
  | nil => intro cache n; exact ⟨by simp [run_loop, creates_named_nil], by simp [run_loop, creates_named_nil]⟩
  | cons t rest ih =>
    intro cache n
    rcases hstep cache t with h1 | ⟨n', evts, hn', h1, hc⟩
    · simp only [run_loop, h1]
      simpa [creates_named_append] using ih cache n
    · simp only [run_loop, h1]
      rw [creates_named_append, hc n]
      by_cases hnn : n' = n
      · subst hnn
        have hrest : creates_named n' (run_loop step (n' :: cache) rest).2 = 0 :=
          run_loop_no_create hstep rest (n' :: cache) n' (List.mem_cons_self _ _)
        constructor
        · simp [hrest]
        · intro _
          exact run_loop_mono hstep rest (n' :: cache) n' (List.mem_cons_self _ _)
      · simp only [hnn, if_false]
        simpa using ih (n' :: cache) n

theorem duplicate_loop_no_create
    {step : List String → Page → Option (List String × List Event)}
    (hstep : StepSpecOpt step) :
    ∀ (tasks : List Page) (cache : List String) (n : String),
      n ∈ cache → creates_named n (duplicate_loop step cache tasks).2 = 0 := by
  intro tasks
  induction tasks with
  | nil => intro cache n _; rfl
  | cons t rest ih =>
    intro cache n h
    rcases hstep cache t with h1 | h1 | ⟨n', evts, hn', h1, hc⟩
    · simp only [duplicate_loop, h1]
      rfl
    · simp only [duplicate_loop, h1]
      simpa [creates_named_append] using ih cache n h
    · simp only [duplicate_loop, h1]
      rw [creates_named_append, hc n, ih _ n (List.mem_cons_of_mem _ h)]
      have : ¬ n' = n := by
        intro e; subst e
        exact absurd (by simpa using h) (by simpa using hn')
      simp [this]

theorem duplicate_loop_create_preceded
    {step : List String → Page → Option (List String × List Event)}
    (hstep : ∀ cache task, step cache task = none ∨ step cache task = some (cache, []) ∨
      ∃ n payload, extract_task_name payload.properties = some n ∧
        cache.contains n = false ∧
        step cache task = some (n :: cache, [.cacheAdd n, .createPage payload])) :
    ∀ (tasks : List Page) (cache : List String) (pre : List Event) (p : Payload)
      (post : List Event),
      (duplicate_loop step cache tasks).2 = pre ++ Event.createPage p :: post →
      ∃ n, extract_task_name p.properties = some n ∧ n ∈ cacheAfter cache pre := by
  intro tasks
  induction tasks with
  | nil =>
    intro cache pre p post h
    exact absurd h (by simp [duplicate_loop])
  | cons t rest ih =>
    intro cache pre p post h
    rcases hstep cache t with h1 | h1 | ⟨n, payload, hpn, hnc, h1⟩
    · rw [duplicate_loop, h1] at h
      exact absurd h (by simp)
    · rw [duplicate_loop] at h
      simp only [h1] at h
      exact ih cache pre p post (by simpa using h)
    · rw [duplicate_loop] at h
      simp only [h1] at h
      match pre, h with
      | [], h =>
        simp only [List.nil_append, List.cons_append, List.cons.injEq] at h
        exact absurd h.1 (by simp)
      | [e], h =>
        simp only [List.cons_append, List.nil_append, List.cons.injEq] at h
        obtain ⟨he, hcreate, -⟩ := h
        subst he
        injection hcreate with hppay
        subst hppay
        exact ⟨n, hpn, by simp [cacheAfter]⟩
      | e₁ :: e₂ :: pre', h =>
        simp only [List.cons_append, List.cons.injEq] at h
        obtain ⟨he₁, he₂, hrest⟩ := h
        subst he₁
        subst he₂
        obtain ⟨m, hm, hmem⟩ := ih (n :: cache) pre' p post hrest
        exact ⟨m, hm, by simpa [cacheAfter] using hmem⟩

/-! ## The claims -/

/-- Claim C1: for a property bag whose `Periodicidad` multi-select is exactly `Mensual`, `_is_task_scheduled_for_today` answers `true` on a date iff the day-of-month is listed, or the week sets are both non-empty, the ISO weekday is listed, and the week-of-month matches — an ordinal week `k` when `(day - 1) / 7 + 1 = k`, `Last` when `day > daysInMonth - 7` — evaluated as independent conditions. -/
theorem C1_monthly_rule (props : Props) (d : SimpleDate)
    (h : get_multi_select_values (List.lookup "Periodicidad" props) = ["Mensual"]) :
    is_task_scheduled_for_today props d =
      mensual_spec
        (get_multi_select_values (List.lookup "Día del mes" props))
        (get_multi_select_values (List.lookup "Semana del mes" props))
        (get_multi_select_values (List.lookup "Día de la semana" props)) d := by
  rw [Bool.eq_iff_iff]
  simp only [is_task_scheduled_for_today, h, periodicity_matches, mensual_spec, week_map,
    List.isEmpty_cons, List.any_cons, List.any_nil, Bool.or_false,
    Bool.if_false_left, Bool.and_eq_true, Bool.or_eq_true, Bool.not_eq_true',
    decide_eq_true_eq, Bool.not_eq_eq_eq_not, Bool.not_true, String.reduceEq,
    false_and, false_or, decide_eq_false_iff_not]
  tauto

/-- Witness for claim C1: the Monthly / Last-week / Friday descriptor on 2025-10-31, the last Friday of a 31-day month. -/
theorem C1_monthly_rule_witness :
    (get_multi_select_values (List.lookup "Periodicidad" lastFridayDescriptor) = ["Mensual"]) ∧
    is_task_scheduled_for_today lastFridayDescriptor ⟨2025, 10, 31⟩ =
      mensual_spec
        (get_multi_select_values (List.lookup "Día del mes" lastFridayDescriptor))
        (get_multi_select_values (List.lookup "Semana del mes" lastFridayDescriptor))
        (get_multi_select_values (List.lookup "Día de la semana" lastFridayDescriptor))
        ⟨2025, 10, 31⟩ :=
  ⟨by decide, C1_monthly_rule lastFridayDescriptor ⟨2025, 10, 31⟩ (by decide)⟩

/-- Counterexample to claim C2: Phase 2 invoked standalone with the dedup cache unseeded for today does populate the cache with the registry query's names — a template named `X`, already registered for today, produces no creation call, and the final cache contains `X`. -/
theorem C2_counterexample :
    (generate_periodic_tasks demoParseTime ⟨2025, 10, 6⟩ [] "db" none
        [registryPageX] [templateX]).2 = [] ∧
    "X" ∈ (generate_periodic_tasks demoParseTime ⟨2025, 10, 6⟩ [] "db" none
        [registryPageX] [templateX]).1 := by
  decide

/-- Claim C2 as amended: each of the three phase operations, when invoked with today's key absent from the dedup cache, seeds the cache from the registry itself, so a name already present in the registry for today is never created by a standalone phase. -/
theorem C2_amended (extractTime : String → Option String)
    (parseTime : String → Option TimeOfDay) (today : SimpleDate)
    (schema : List String) (db_id : String) (registry_today : List Page)
    (tasks₁ tasks₂ tasks₃ : List Page) (n : String)
    (hn : n ∈ todays_scheduled_task_names registry_today) :
    creates_named n (duplicate_unfinished_tasks_for_today extractTime parseTime today
        schema db_id none registry_today tasks₁).2 = 0 ∧
    creates_named n (generate_periodic_tasks parseTime today
        schema db_id none registry_today tasks₂).2 = 0 ∧
    creates_named n (add_alerted_objective_tasks parseTime today
        schema db_id none registry_today tasks₃).2 = 0 :=
  ⟨duplicate_loop_no_create (duplicate_step_spec_opt extractTime parseTime today schema db_id)
      tasks₁ (seed_cache none registry_today) n hn,
   run_loop_no_create (generate_periodic_step_spec parseTime today schema db_id)
      tasks₂ (seed_cache none registry_today) n hn,
   run_loop_no_create (alerted_step_spec parseTime today schema db_id)
      tasks₃ (seed_cache none registry_today) n hn⟩

/-- Witness for the amended claim C2 at a concrete registry and task list. -/
theorem C2_amended_witness :
    ("X" ∈ todays_scheduled_task_names [registryPageX]) ∧
    (creates_named "X" (duplicate_unfinished_tasks_for_today demoExtractTime demoParseTime
        ⟨2025, 10, 6⟩ [] "db" none [registryPageX] [unfinishedTaskT]).2 = 0 ∧
     creates_named "X" (generate_periodic_tasks demoParseTime
        ⟨2025, 10, 6⟩ [] "db" none [registryPageX] [templateX]).2 = 0 ∧
     creates_named "X" (add_alerted_objective_tasks demoParseTime
        ⟨2025, 10, 6⟩ [] "db" none [registryPageX] [templateX]).2 = 0) :=
  ⟨by decide,
   C2_amended demoExtractTime demoParseTime ⟨2025, 10, 6⟩ [] "db" [registryPageX]
     [unfinishedTaskT] [templateX] [templateX] "X" (by decide)⟩

/-- Counterexample to claim C3: in Phase 1 the executed trace of an accepted task is cache insertion first, creation call second, and the cache replayed over the events preceding the creation call already contains the task's name. -/
theorem C3_counterexample :
    (duplicate_unfinished_tasks_for_today demoExtractTime demoParseTime ⟨2025, 10, 6⟩ []
        "registry" none [] [unfinishedTaskT]).2
      = [Event.cacheAdd "T", Event.createPage payloadT] ∧
    "T" ∈ cacheAfter (seed_cache none []) [Event.cacheAdd "T"] := by
  decide

/-- Claim C3 as amended: in Phase 1, every creation call in the trace is preceded by the cache insertion of its payload's task name; consequently, if the create call raises a terminal error, the dedup cache at that point does contain the name. -/
theorem C3_amended (extractTime : String → Option String)
    (parseTime : String → Option TimeOfDay) (today : SimpleDate)
    (schema : List String) (db_id : String) (init : Option (List String))
    (registry_today tasks : List Page) (pre : List Event) (p : Payload)
    (post : List Event)
    (h : (duplicate_unfinished_tasks_for_today extractTime parseTime today schema db_id init
            registry_today tasks).2 = pre ++ Event.createPage p :: post) :
    ∃ n, extract_task_name p.properties = some n ∧
      n ∈ cacheAfter (seed_cache init registry_today) pre :=
  duplicate_loop_create_preceded
    (duplicate_step_cases extractTime parseTime today schema db_id)
    tasks (seed_cache init registry_today) pre p post h

/-- Witness for the amended claim C3 at a concrete one-record duplication run. -/
theorem C3_amended_witness :
    ((duplicate_unfinished_tasks_for_today demoExtractTime demoParseTime ⟨2025, 10, 6⟩ []
        "registry" none [] [unfinishedTaskT]).2
      = [Event.cacheAdd "T"] ++ Event.createPage payloadT :: []) ∧
    (∃ n, extract_task_name payloadT.properties = some n ∧
      n ∈ cacheAfter (seed_cache none []) [Event.cacheAdd "T"]) :=
  ⟨by decide,
   C3_amended demoExtractTime demoParseTime ⟨2025, 10, 6⟩ [] "registry" none [] [unfinishedTaskT]
     [Event.cacheAdd "T"] payloadT [] (by decide)⟩

/-- Claim C4: for every source record, task name, occurrence time and target schema, the payload produced by `_build_new_page_payload` contains no property whose type is one of the read-only types (formula, rollup, created_by, created_time, last_edited_by, last_edited_time). -/
theorem C4_builder_no_read_only (schema : List String) (db_id : String)
    (source_task : Page) (task_name : String) (planned_date : Option DateValue) :
    ((build_new_page_payload schema db_id source_task task_name planned_date).properties.all
      (fun kv => !is_read_only_type kv.2)) = true := by
  rw [List.all_eq_true]
  intro kv hkv
  simp only [build_new_page_payload] at hkv
  replace hkv := mem_popProp hkv
  simp only [Bool.not_eq_true']
  repeat' split at hkv
  all_goals
    repeat' first
      | exact rfl
      | exact copy_writable_properties_not_read_only _ _ hkv
      | rcases mem_setProp hkv with rfl | hkv

/-- Claim C5: provided the back-reference field `Tarea` is in the target schema, the built payload's `Tarea` relation equals the source's relation verbatim when the source carries a non-empty same-named relation, and the single-element relation `[source.id]` otherwise. -/
theorem C5_relation_handling (schema : List String) (db_id : String)
    (source_task : Page) (task_name : String) (planned_date : Option DateValue)
    (h : schema.contains "Tarea" = true) :
    (∀ r rs, List.lookup "Tarea" source_task.properties = some (.relation (r :: rs)) →
      List.lookup "Tarea"
          (build_new_page_payload schema db_id source_task task_name planned_date).properties
        = some (.relation (r :: rs))) ∧
    ((∀ r rs, List.lookup "Tarea" source_task.properties ≠ some (.relation (r :: rs))) →
      List.lookup "Tarea"
          (build_new_page_payload schema db_id source_task task_name planned_date).properties
        = some (.relation [source_task.id])) := by
  have hpl : ∀ l : Props, List.lookup "Tarea"
      (popProp (match planned_date with
       | some d => setProp l "Horario Planificado" (.date (some d))
       | none => l) "Horario") = List.lookup "Tarea" l := by
    intro l
    rw [lookup_popProp_ne _ (by decide)]
    cases planned_date with
    | none => rfl
    | some d' => exact lookup_setProp_ne l _ (by decide)
  constructor
  · intro r rs hr
    simp only [build_new_page_payload, h, if_true, hpl, hr]
    rw [lookup_setProp_self]
  · intro hne
    simp only [build_new_page_payload, h, if_true, hpl]
    rw [lookup_setProp_self]

/-- Witness for claim C5: a source that already carries a populated relation. -/
theorem C5_relation_handling_witness :
    ((["Tarea"] : List String).contains "Tarea" = true) ∧
    List.lookup "Tarea"
        (build_new_page_payload ["Tarea"] "db" sourceWithRelation "N" none).properties
      = some (.relation ["orig"]) :=
  ⟨by decide,
   (C5_relation_handling ["Tarea"] "db" sourceWithRelation "N" none (by decide)).1
     "orig" [] (by decide)⟩

/-- Claim C6: running Phase 2 twice in the same in-memory session — same template list both times, the second run starting from the first run's final cache with no reset in between — performs at most one creation call for any given task name across the two runs. -/
theorem C6_phase2_twice (parseTime : String → Option TimeOfDay) (today : SimpleDate)
    (schema : List String) (db_id : String) (init : Option (List String))
    (registry_today tasks : List Page) (n : String) :
    creates_named n
        ((generate_periodic_tasks parseTime today schema db_id init registry_today tasks).2
          ++ (generate_periodic_tasks parseTime today schema db_id
                (some (generate_periodic_tasks parseTime today schema db_id init
                        registry_today tasks).1)
                registry_today tasks).2) ≤ 1 := by
  unfold generate_periodic_tasks
  rw [creates_named_append]
  have hspec := generate_periodic_step_spec parseTime today schema db_id
  have h1 := run_loop_create_le_one hspec tasks (seed_cache init registry_today) n
  by_cases hc : 1 ≤ creates_named n (run_loop (generate_periodic_step parseTime today schema db_id)
      (seed_cache init registry_today) tasks).2
  · have hmem := h1.2 hc
    have h2 : creates_named n (run_loop (generate_periodic_step parseTime today schema db_id)
        (seed_cache (some (run_loop (generate_periodic_step parseTime today schema db_id)
          (seed_cache init registry_today) tasks).1) registry_today) tasks).2 = 0 :=
      run_loop_no_create hspec tasks _ n hmem
    have h11 := h1.1
    omega
  · have h2 := (run_loop_create_le_one hspec tasks
      (seed_cache (some (run_loop (generate_periodic_step parseTime today schema db_id)
        (seed_cache init registry_today) tasks).1) registry_today) n).1
    omega

/-- Claim C7: `_build_planned_datetime` is a total function, and whenever the start string is absent or falsy, or any supplied non-empty time string fails to parse, the result is the local-noon fallback `{start: today 12:00}`; a time-format error therefore never aborts the enclosing item loop. -/
theorem C7_planned_fallback (parseTime : String → Option TimeOfDay)
    (today : SimpleDate) (start_time_str end_time_str : Option String)
    (h : start_time_str = none ∨ start_time_str = some "" ∨
         (∃ s, start_time_str = some s ∧ s ≠ "" ∧ parseTime s = none) ∨
         (∃ e, end_time_str = some e ∧ e ≠ "" ∧ parseTime e = none)) :
    build_planned_datetime parseTime today start_time_str end_time_str
      = noonFallback today := by
  rcases h with rfl | rfl | ⟨s, rfl, hs, hp⟩ | ⟨e, rfl, he, hp⟩
  · rfl
  · simp [build_planned_datetime]
  · simp [build_planned_datetime, hs, hp]
  · cases start_time_str with
    | none => rfl
    | some s =>
      by_cases hs : s = ""
      · simp [build_planned_datetime, hs]
      · cases hps : parseTime s with
        | none => simp [build_planned_datetime, hs, hps]
        | some st => simp [build_planned_datetime, hs, hps, he, hp]

/-- Witness for claim C7: an unparseable start string. -/
theorem C7_planned_fallback_witness :
    ((some "bad" : Option String) = none ∨ (some "bad" : Option String) = some "" ∨
      (∃ s, (some "bad" : Option String) = some s ∧ s ≠ "" ∧ demoParseTime s = none) ∨
      (∃ e, (none : Option String) = some e ∧ e ≠ "" ∧ demoParseTime e = none)) ∧
    build_planned_datetime demoParseTime ⟨2025, 10, 6⟩ (some "bad") none
      = noonFallback ⟨2025, 10, 6⟩ :=
  ⟨Or.inr (Or.inr (Or.inl ⟨"bad", rfl, by decide, by decide⟩)),
   C7_planned_fallback demoParseTime ⟨2025, 10, 6⟩ (some "bad") none
     (Or.inr (Or.inr (Or.inl ⟨"bad", rfl, by decide, by decide⟩)))⟩

/-- Claim C8: for every source record, task name and target schema — including the empty schema left by a failed schema fetch — the built payload carries the title field `Nombre` with the given task name, and carries the `Horario Planificado` date field whenever a truthy occurrence time is supplied. -/
theorem C8_title_and_planned_time (schema : List String) (db_id : String)
    (source_task : Page) (task_name : String) (planned_date : Option DateValue)
    (d : DateValue) :
    List.lookup "Nombre"
        (build_new_page_payload schema db_id source_task task_name planned_date).properties
      = some (.title [⟨task_name⟩]) ∧
    List.lookup "Horario Planificado"
        (build_new_page_payload schema db_id source_task task_name (some d)).properties
      = some (.date (some d)) := by
  refine ⟨lookup_payload_nombre schema db_id source_task task_name planned_date, ?_⟩
  simp only [build_new_page_payload]
  rw [lookup_popProp_ne _ (by decide), lookup_setProp_self]

/-- Claim C9: in `_build_planned_datetime`, if the start string parses but the end string is present, non-empty and malformed, the already-computed start is discarded: the result is exactly the noon fallback with no end. -/
theorem C9_valid_start_discarded (parseTime : String → Option TimeOfDay)
    (today : SimpleDate) (s e : String) (st : TimeOfDay)
    (hs : s ≠ "") (hps : parseTime s = some st) (he : e ≠ "") (hpe : parseTime e = none) :
    build_planned_datetime parseTime today (some s) (some e) = noonFallback today := by
  simp [build_planned_datetime, hs, hps, he, hpe]

/-- Witness for claim C9: a valid start paired with a malformed end. -/
theorem C9_valid_start_discarded_witness :
    ("09:00" ≠ "" ∧ demoParseTime "09:00" = some ⟨9, 0⟩ ∧
      "bad" ≠ "" ∧ demoParseTime "bad" = none) ∧
    build_planned_datetime demoParseTime ⟨2025, 10, 6⟩ (some "09:00") (some "bad")
      = noonFallback ⟨2025, 10, 6⟩ :=
  ⟨⟨by decide, by decide, by decide, by decide⟩,
   C9_valid_start_discarded demoParseTime ⟨2025, 10, 6⟩ "09:00" "bad" ⟨9, 0⟩
     (by decide) (by decide) (by decide) (by decide)⟩

/-- Claim C10: a duplication-phase record with a non-empty name but no truthy `Horario` or `Horario Planificado` date is skipped: the step leaves the cache unchanged and emits no events, and the loop over the remaining records proceeds exactly as if the record were absent. -/
theorem C10_dateless_record_skipped (extractTime : String → Option String)
    (parseTime : String → Option TimeOfDay) (today : SimpleDate)
    (schema : List String) (db_id : String) (cache : List String)
    (task : Page) (rest : List Page) (n : String)
    (hname : extract_task_name task.properties = some n)
    (hdate : source_date_of task.properties = none) :
    duplicate_step extractTime parseTime today schema db_id cache task = some (cache, []) ∧
    duplicate_loop (duplicate_step extractTime parseTime today schema db_id) cache (task :: rest)
      = duplicate_loop (duplicate_step extractTime parseTime today schema db_id) cache rest := by
  have hstep : duplicate_step extractTime parseTime today schema db_id cache task
      = some (cache, []) := by
    unfold duplicate_step
    simp [hname, hdate]
  refine ⟨hstep, ?_⟩
  rw [duplicate_loop, hstep]
  simp

/-- Witness for claim C10: a record carrying a name and a null date value. -/
theorem C10_witness :
    (extract_task_name datelessTask.properties = some "D" ∧
     source_date_of datelessTask.properties = none) ∧
    (duplicate_step demoExtractTime demoParseTime ⟨2025, 10, 6⟩ [] "db" [] datelessTask
        = some ([], []) ∧
     duplicate_loop (duplicate_step demoExtractTime demoParseTime ⟨2025, 10, 6⟩ [] "db") []
        [datelessTask]
      = duplicate_loop (duplicate_step demoExtractTime demoParseTime ⟨2025, 10, 6⟩ [] "db") [] []) :=
  ⟨⟨by decide, by decide⟩,
   C10_dateless_record_skipped demoExtractTime demoParseTime ⟨2025, 10, 6⟩ [] "db" []
     datelessTask [] "D" (by decide) (by decide)⟩

end AutoNotion
